import Mathlib

/-!
# Verification of the inversab core data pipeline

Shallow embedding of the core logic of the two dashboard entry points
(`app.py` and `inversiones.py`): the data acquirer `get_base_data`, the
inflation-index builder `get_inflation_factors`, the text normalizer
`normalize_text`, and the filter/aggregate pipeline that derives the
on-screen metrics from the base table.

Modelling conventions:
* pandas DataFrames are lists of records; a nullable numeric column is an
  `Option ℚ` field (`none` = NaN).
* Python floats are modelled as exact rationals `ℚ`; Python raising an
  exception is modelled with `Option`/an explicit error constructor.
* A Python dict with integer keys is an association list `List (ℤ × ℚ)`
  whose keys are pairwise distinct; iteration over `sorted(d.keys())` is
  modelled by keeping the entry list sorted by key (strictly ascending),
  which theorems assume via a `Pairwise (· < ·)` hypothesis on the keys.
-/

namespace Inversab

/-! ## Data acquirer (`get_base_data` in app.py and inversiones.py)

A raw Socrata cell, as seen by `pd.to_numeric(column, errors='coerce')`:
either a string that parses as the number `q`, a string that fails numeric
parsing (coerced to NaN), or a missing field (NaN).  The five text columns
are never numerically coerced, so they are kept as plain strings. -/

inductive RawVal
  | numStr (q : ℚ)
  | badStr
  | null
deriving DecidableEq, Repr

/-- `pd.to_numeric(v, errors='coerce')` on a single cell: a parse failure or
a missing value becomes NaN (`none`). -/
def toNumeric : RawVal → Option ℚ
  | .numStr q => some q
  | .badStr => none
  | .null => none

/-- One element of the JSON array returned by the Socrata endpoint, with the
seven selected columns. -/
structure RawRow where
  vigencia : RawVal
  departamento : String
  municipio : String
  fuentefinanciacion : String
  valorpagado : RawVal
  sectorproyecto : String
  nombreproyecto : String
deriving DecidableEq, Repr

/-- A DataFrame row after `pd.to_numeric(..., errors='coerce')` has been
applied to the `vigencia` and `valorpagado` columns: both are nullable
numeric columns now. -/
structure CoercedRow where
  vigencia : Option ℚ
  departamento : String
  municipio : String
  fuentefinanciacion : String
  valorpagado : Option ℚ
  sectorproyecto : String
  nombreproyecto : String
deriving DecidableEq, Repr

/-- The two `pd.to_numeric` column assignments (app.py lines 101-102,
inversiones.py lines 81-82). -/
def coerceColumns (rows : List RawRow) : List CoercedRow :=
  rows.map fun r =>
    ⟨toNumeric r.vigencia, r.departamento, r.municipio, r.fuentefinanciacion,
     toNumeric r.valorpagado, r.sectorproyecto, r.nombreproyecto⟩

/-- `df.dropna(subset=['vigencia', 'valorpagado'], inplace=True)`
(app.py line 103): keep exactly the rows where both columns are non-NaN. -/
def dropnaVigenciaValorpagado (rows : List CoercedRow) : List CoercedRow :=
  rows.filter fun r => r.vigencia.isSome && r.valorpagado.isSome

/-- numpy `astype(int)` on a finite float: truncation toward zero. -/
def astypeInt (q : ℚ) : ℤ := Int.tdiv q.num q.den

/-- A fully cleaned spending record, as produced by app.py's acquirer after
`df['vigencia'] = df['vigencia'].astype(int)` (line 104). -/
structure Row where
  vigencia : ℤ
  departamento : String
  municipio : String
  fuentefinanciacion : String
  valorpagado : ℚ
  sectorproyecto : String
  nombreproyecto : String
deriving DecidableEq, Repr

/-- Conversion of a dropna-surviving coerced row to a cleaned row; the
`getD` defaults are never reached on rows that passed the dropna filter. -/
def toRow (r : CoercedRow) : Row :=
  ⟨astypeInt (r.vigencia.getD 0), r.departamento, r.municipio,
   r.fuentefinanciacion, r.valorpagado.getD 0, r.sectorproyecto,
   r.nombreproyecto⟩

/-- The table built by app.py's `get_base_data` try-body from a successfully
fetched and parsed JSON array: coerce both numeric columns, drop rows where
either is NaN, cast the year to int. -/
def appBaseTable (rows : List RawRow) : List Row :=
  (dropnaVigenciaValorpagado (coerceColumns rows)).map toRow

/-- The table built by inversiones.py's `get_base_data` try-body: both
columns are coerced but no row is dropped (there is no `dropna` there). -/
def invBaseTable (rows : List RawRow) : List CoercedRow :=
  coerceColumns rows

/-- The Python exception kinds relevant to the acquirer's try/except blocks.
`requests.get`/`raise_for_status` raise transport errors, `response.json()`
raises `requests.exceptions.JSONDecodeError` (since requests 2.27 a subclass
of `RequestException`), and indexing a column that is absent from the
DataFrame raises `KeyError`. -/
inductive PyExc
  | httpError
  | connectionError
  | timeoutError
  | jsonDecodeError
  | keyError
deriving DecidableEq, Repr

/-- Membership in the `requests.exceptions.RequestException` class hierarchy
(`HTTPError`, `ConnectionError`, `Timeout` and `JSONDecodeError` are all
subclasses; `KeyError` is not). -/
def isRequestException : PyExc → Bool
  | .keyError => false
  | _ => true

/-- The failure kinds the specification calls transport or parse failures. -/
def isTransportOrParse : PyExc → Bool
  | .httpError => true
  | .connectionError => true
  | .timeoutError => true
  | .jsonDecodeError => true
  | .keyError => false

/-- Outcome of the remote fetch + JSON parse: a JSON array of records, or an
exception raised before a DataFrame exists. -/
inductive FetchOutcome
  | success (rows : List RawRow)
  | failure (e : PyExc)

/-- app.py's `get_base_data` (lines 93-108) as a function of the fetch
outcome.  `some (table, reported)` is a normal return (`reported` records
whether `st.error` was called); `none` would be an exception escaping the
function.  The bare `except Exception` catches every exception, including
the `KeyError` arising when an empty JSON array yields a DataFrame without
the selected columns, so this function never returns `none`. -/
def get_base_data_app (o : FetchOutcome) : Option (List Row × Bool) :=
  match o with
  | .failure _ => some ([], true)
  | .success [] => some ([], true)
  | .success rows => some (appBaseTable rows, false)

/-- inversiones.py's `get_base_data` (lines 72-89) as a function of the
fetch outcome: only `requests.exceptions.HTTPError` and
`requests.exceptions.RequestException` are caught; any other exception
(e.g. the `KeyError` on an empty JSON array) escapes (`none`). -/
def get_base_data_inv (o : FetchOutcome) : Option (List CoercedRow × Bool) :=
  match o with
  | .failure e => if isRequestException e then some ([], true) else none
  | .success [] => none
  | .success rows => some (invBaseTable rows, false)

/-! ## Inflation index builder (`get_inflation_factors`, app.py 56-69) -/

/-- The loop `for year in sorted(ipc_data.keys()): ipc_index[year] =
ipc_index[year - 1] * (1 + ipc_data[year] / 100)`.  `acc` is the dict built
so far (as an association list in insertion order); a failed lookup of
`year - 1` is Python's `KeyError` (`none`). -/
def ipcIndexLoop : List (ℤ × ℚ) → List (ℤ × ℚ) → Option (List (ℤ × ℚ))
  | acc, [] => some acc
  | acc, (y, r) :: rest =>
    match acc.lookup (y - 1) with
    | none => none
    | some prev => ipcIndexLoop (acc ++ [(y, prev * (1 + r / 100))]) rest

/-- `ipc_index = {min(ipc_data.keys()) - 1: 100}` followed by the
compounding loop; with the entry list sorted ascending by year, the head
key is `min(ipc_data.keys())`.  An empty dict makes Python's `min` raise
(`none`). -/
def buildIpcIndex : List (ℤ × ℚ) → Option (List (ℤ × ℚ))
  | [] => none
  | (y0, r0) :: rest => ipcIndexLoop [(y0 - 1, 100)] ((y0, r0) :: rest)

/-- Result of `get_inflation_factors`: a factor dict, `None` (after the
`st.warning` about the base year), or an uncaught exception (`KeyError`
from a gap in the years, `ValueError` from `min` of an empty dict, or
`ZeroDivisionError`). -/
inductive InflationResult
  | factors (f : List (ℤ × ℚ))
  | noAdjust
  | pyError
deriving DecidableEq, Repr

/-- `get_inflation_factors(ipc_data, base_year)` (app.py lines 56-69).
`base_ipc = ipc_index.get(base_year)`; the truthiness test
`if not base_ipc` treats both `None` and an index value of `0.0` as
missing.  The factor loop divides `base_ipc / index_val` for every entry
with no zero guard, so a zero index value raises `ZeroDivisionError`. -/
def get_inflation_factors (ipc : List (ℤ × ℚ)) (baseYear : ℤ) :
    InflationResult :=
  match buildIpcIndex ipc with
  | none => .pyError
  | some idx =>
    match idx.lookup baseYear with
    | none => .noAdjust
    | some b =>
      if b = 0 then .noAdjust
      else if idx.any fun p => decide (p.2 = 0) then .pyError
      else .factors (idx.map fun p => (p.1, b / p.2))

/-- `IPC_ANUAL` (app.py lines 20-24), with the percentage rates as exact
rationals. -/
def IPC_ANUAL : List (ℤ × ℚ) :=
  [(2010, 317/100), (2011, 373/100), (2012, 244/100), (2013, 194/100),
   (2014, 366/100), (2015, 677/100), (2016, 575/100), (2017, 409/100),
   (2018, 318/100), (2019, 380/100), (2020, 161/100), (2021, 562/100),
   (2022, 1312/100), (2023, 928/100), (2024, 520/100)]

/-- `BASE_YEAR_INFLATION = 2023` (app.py line 25). -/
def BASE_YEAR_INFLATION : ℤ := 2023

/-- The factor dict actually computed by app.py from its constants
(extraction of the `factors` branch; see `appFactors_spec` below). -/
def appFactors : List (ℤ × ℚ) :=
  match get_inflation_factors IPC_ANUAL BASE_YEAR_INFLATION with
  | .factors f => f
  | _ => []

/-! ## Text normalizer (`normalize_text`, app.py 49-54 / inversiones.py
40-48)

`unicodedata` is an external library; its behaviour is modelled on a
character universe with one constructor per character class the function
distinguishes: plain lowercase/uppercase Latin letters (`Fin 26`), digits,
the punctuation and space characters occurring in the dataset's region
names, precomposed letters carrying one diacritic (which NFD splits into
the base letter followed by a combining mark), and bare combining marks
(Unicode category Mn). -/

inductive Mark
  | acute
  | grave
  | tilde
  | diaeresis
  | circumflex
deriving DecidableEq, Repr

inductive UChar
  | low (n : Fin 26)
  | up (n : Fin 26)
  | dig (n : Fin 10)
  | dot
  | comma
  | hyphen
  | space
  | prelow (n : Fin 26) (m : Mark)
  | preup (n : Fin 26) (m : Mark)
  | mark (m : Mark)
deriving DecidableEq, Repr

/-- `unicodedata.normalize('NFD', ·)` on one character: a precomposed
letter splits into its base letter followed by its combining mark; every
other modelled character is NFD-stable. -/
def nfd : UChar → List UChar
  | .prelow n m => [.low n, .mark m]
  | .preup n m => [.up n, .mark m]
  | c => [c]

/-- `unicodedata.category(c) == 'Mn'`: exactly the combining marks. -/
def isMn : UChar → Bool
  | .mark _ => true
  | _ => false

/-- Python `str.lower` on one character. -/
def uLower : UChar → UChar
  | .up n => .low n
  | .preup n m => .prelow n m
  | c => c

/-- Whitespace for Python `str.strip`. -/
def uIsWs : UChar → Bool
  | .space => true
  | _ => false

/-- Python `str.strip()`: drop leading and trailing whitespace. -/
def stripList (s : List UChar) : List UChar :=
  ((s.dropWhile uIsWs).reverse.dropWhile uIsWs).reverse

/-- `normalize_text` on a string: NFD-decompose, drop the characters of
category Mn, lowercase, and strip (app.py lines 52-54). -/
def normalize_text (s : List UChar) : List UChar :=
  stripList (((s.flatMap nfd).filter fun c => !isMn c).map uLower)

/-- A Python value reaching `normalize_text`: a string, or any non-string
value (`isinstance(text, str)` is false), identified only by a tag. -/
inductive PyVal
  | pyStr (s : List UChar)
  | nonStr (tag : ℕ)
deriving DecidableEq, Repr

/-- The full `normalize_text`, including the early return of non-string
input (app.py lines 50-51). -/
def normalize_text_py : PyVal → PyVal
  | .pyStr s => .pyStr (normalize_text s)
  | .nonStr t => .nonStr t

/-! ## Filter and aggregate pipeline (app.py lines 140-185, 280-319) -/

/-- The user's current selection: year range slider plus the three
multiselects. -/
structure FilterState where
  yearLo : ℤ
  yearHi : ℤ
  departamentos : List String
  municipios : List String
  fuentes : List String
deriving DecidableEq, Repr

/-- `df_base[(df_base['vigencia'] >= lo) & (df_base['vigencia'] <= hi)]`
(app.py lines 140-143). -/
def filterByYear (df : List Row) (lo hi : ℤ) : List Row :=
  df.filter fun r => decide (lo ≤ r.vigencia) && decide (r.vigencia ≤ hi)

/-- One `if selected: dff = dff[dff[col].isin(selected)]` block
(app.py lines 167-172): filters only when the selection is non-empty. -/
def isinFilter (sel : List String) (proj : Row → String) (df : List Row) :
    List Row :=
  if sel.isEmpty then df else df.filter fun r => decide (proj r ∈ sel)

/-- The full filter cascade producing `dff` (app.py lines 140-172): year
range first, then departamento, municipio and fuente in order. -/
def dffFiltered (df : List Row) (fs : FilterState) : List Row :=
  isinFilter fs.fuentes Row.fuentefinanciacion
    (isinFilter fs.municipios Row.municipio
      (isinFilter fs.departamentos Row.departamento
        (filterByYear df fs.yearLo fs.yearHi)))

/-- `inflation_factors.get(row['vigencia'], 1)` (app.py line 181). -/
def lookupFactor (f : List (ℤ × ℚ)) (y : ℤ) : ℚ :=
  (f.lookup y).getD 1

/-- The value-column assignment (app.py lines 174-185) over a given rate
table and base year: each row of `dff` is paired with the value the
aggregations will use.  When the toggle is on, the factors are computed;
a truthy (non-`None`, non-empty) factor dict yields the adjusted column,
a falsy one leaves the nominal column in place, and an exception escaping
`get_inflation_factors` aborts the script run (`none`). -/
def pipelineRunWith (ipc : List (ℤ × ℚ)) (baseYear : ℤ) (df : List Row)
    (fs : FilterState) (adjust : Bool) : Option (List (Row × ℚ)) :=
  let dff := dffFiltered df fs
  if adjust then
    match get_inflation_factors ipc baseYear with
    | .pyError => none
    | .noAdjust => some (dff.map fun r => (r, r.valorpagado))
    | .factors f =>
      if f.isEmpty then some (dff.map fun r => (r, r.valorpagado))
      else some (dff.map fun r => (r, r.valorpagado * lookupFactor f r.vigencia))
  else some (dff.map fun r => (r, r.valorpagado))

/-- The pipeline as app.py runs it, with its fixed constants. -/
def pipelineRun (df : List Row) (fs : FilterState) (adjust : Bool) :
    Option (List (Row × ℚ)) :=
  pipelineRunWith IPC_ANUAL BASE_YEAR_INFLATION df fs adjust

/-- `dff[valor_columna].sum()` restricted to a period sub-range
(app.py lines 280-290): the rows carry their selected value column. -/
def periodTotal (dff : List (Row × ℚ)) (lo hi : ℤ) : ℚ :=
  ((dff.filter fun p =>
      decide (lo ≤ p.1.vigencia) && decide (p.1.vigencia ≤ hi)).map
    Prod.snd).sum

/-- What the comparison section displays for the delta metric. -/
inductive DeltaDisplay
  | percentDelta (q : ℚ)
  | notAvailable
  | noData
deriving DecidableEq, Repr

/-- The comparison display logic (app.py lines 293-319): the section is
rendered only when some period total is positive; the percentage delta is
computed only when `total_p1 > 0`, otherwise the metric shows `N/A`. -/
def comparisonDelta (t1 t2 : ℚ) : DeltaDisplay :=
  if 0 < t1 ∨ 0 < t2 then
    if 0 < t1 then .percentDelta ((t2 - t1) / t1 * 100) else .notAvailable
  else .noData

/-- `dff[valor_columna].sum()` under a filter state (nominal column). -/
def aggregateTotal (df : List Row) (fs : FilterState) : ℚ :=
  ((dffFiltered df fs).map Row.valorpagado).sum

/-- Number of rows of `dff` under a filter state. -/
def filteredCount (df : List Row) (fs : FilterState) : ℕ :=
  (dffFiltered df fs).length

/-! ## Derived predicates and concrete data -/

/-- The row predicate the whole filter cascade amounts to. -/
def rowPass (fs : FilterState) (r : Row) : Bool :=
  (decide (fs.yearLo ≤ r.vigencia) && decide (r.vigencia ≤ fs.yearHi))
    && (fs.departamentos.isEmpty || decide (r.departamento ∈ fs.departamentos))
    && (fs.municipios.isEmpty || decide (r.municipio ∈ fs.municipios))
    && (fs.fuentes.isEmpty || decide (r.fuentefinanciacion ∈ fs.fuentes))

/-- The widening relation the corrected monotonicity claim uses on one
multiselect: the wider state selects nothing (passing every row through),
or both select something and the wider selection contains the narrower. -/
def selectionWider (a b : List String) : Prop :=
  b = [] ∨ (a ≠ [] ∧ ∀ x ∈ a, x ∈ b)

/-- Characters fixed by every stage of the normalizer: NFD-stable, not a
combining mark, lowercase-stable. -/
def stableChar : UChar → Bool
  | .low _ => true
  | .dig _ => true
  | .dot => true
  | .comma => true
  | .hyphen => true
  | .space => true
  | _ => false

/-- The spec's acquisition rule stated directly on one fetched row: the row
enters the base table exactly when both numeric coercions succeed, carrying
the int-cast year and the parsed amount. -/
def keptRow (r : RawRow) : Option Row :=
  match toNumeric r.vigencia, toNumeric r.valorpagado with
  | some v, some p =>
    some ⟨astypeInt v, r.departamento, r.municipio, r.fuentefinanciacion, p,
      r.sectorproyecto, r.nombreproyecto⟩
  | _, _ => none

/-- A fetched row whose fiscal year fails numeric coercion. -/
def rawBad : RawRow :=
  ⟨.badStr, "antioquia", "medellin", "sgp", .numStr 5, "salud", "p1"⟩

/-- A fetched row where both numeric coercions succeed. -/
def rawGood : RawRow :=
  ⟨.numStr 2015, "antioquia", "medellin", "sgp", .numStr 7, "salud", "p1"⟩

/-- A cleaned demonstration row. -/
def rowMedellin : Row :=
  ⟨2015, "antioquia", "medellin", "sgp", 7, "salud", "p1"⟩

/-- Filter state selecting nothing beyond the full year range. -/
def stateA : FilterState := ⟨2010, 2025, [], [], []⟩

/-- Filter state selecting one (non-matching) department. -/
def stateB : FilterState := ⟨2010, 2025, ["otra"], [], []⟩

/-- Filter state selecting one matching department. -/
def stateA2 : FilterState := ⟨2010, 2025, ["antioquia"], [], []⟩

/-- Filter state whose department selection strictly contains `stateA2`'s. -/
def stateB2 : FilterState := ⟨2010, 2025, ["antioquia", "otra"], [], []⟩

/-- Two valued rows totalling 100 in 2010-2011 and 150 in 2012-2013. -/
def demoPeriods : List (Row × ℚ) :=
  [(⟨2010, "antioquia", "medellin", "sgp", 100, "salud", "p1"⟩, 100),
   (⟨2012, "antioquia", "medellin", "sgp", 150, "salud", "p2"⟩, 150)]

/-- The string `Bogotá D.C.` (letters as indices into the alphabet, `á` as
a precomposed letter). -/
def bogotaRaw : List UChar :=
  [.up 1, .low 14, .low 6, .low 14, .low 19, .prelow 0 .acute, .space,
   .up 3, .dot, .up 2, .dot]

/-- The string `bogota d.c.`. -/
def bogotaNorm : List UChar :=
  [.low 1, .low 14, .low 6, .low 14, .low 19, .low 0, .space,
   .low 3, .dot, .low 2, .dot]

/-- The string `  Nariño ` (with surrounding whitespace and a precomposed
`ñ`). -/
def narinoRaw : List UChar :=
  [.space, .space, .up 13, .low 0, .low 17, .low 8, .prelow 13 .tilde,
   .low 14, .space]

/-- The string `narino`. -/
def narinoNorm : List UChar :=
  [.low 13, .low 0, .low 17, .low 8, .low 13, .low 14]

/-! ## Helper lemmas: association-list lookup -/

lemma lookup_eq_some_mem {l : List (ℤ × ℚ)} {k : ℤ} {v : ℚ}
    (h : l.lookup k = some v) : (k, v) ∈ l := by
  induction l with
  | nil => simp [List.lookup_nil] at h
  | cons p l ih =>
    obtain ⟨a, b⟩ := p
    rw [List.lookup_cons] at h
    rcases hk : (k == a) with _ | _
    · rw [hk] at h
      exact List.mem_cons_of_mem _ (ih h)
    · rw [hk] at h
      obtain rfl : b = v := by simpa using h
      obtain rfl : k = a := beq_iff_eq.mp hk
      exact List.mem_cons_self _ _

lemma lookup_eq_of_nodup_mem {l : List (ℤ × ℚ)}
    (hnd : (l.map Prod.fst).Nodup) {k : ℤ} {v : ℚ} (hm : (k, v) ∈ l) :
    l.lookup k = some v := by
  induction l with
  | nil => simp at hm
  | cons p l ih =>
    obtain ⟨a, b⟩ := p
    rw [List.map_cons] at hnd
    rcases List.mem_cons.mp hm with h | h
    · obtain ⟨rfl, rfl⟩ := Prod.mk.injEq .. ▸ h
      rw [List.lookup_cons]
      simp
    · have hk : k ∈ l.map Prod.fst := List.mem_map.mpr ⟨(k, v), h, rfl⟩
      have ha : a ∉ l.map Prod.fst := (List.nodup_cons.mp hnd).1
      have hne : (k == a) = false := by
        refine beq_eq_false_iff_ne.mpr ?_
        rintro rfl
        exact ha hk
      rw [List.lookup_cons, hne]
      exact ih (List.nodup_cons.mp hnd).2 h

lemma lookup_map_value (l : List (ℤ × ℚ)) (k : ℤ) (f : ℚ → ℚ) :
    (l.map fun p => (p.1, f p.2)).lookup k = (l.lookup k).map f := by
  induction l with
  | nil => simp [List.lookup_nil]
  | cons p l ih =>
    obtain ⟨a, b⟩ := p
    rw [List.map_cons, List.lookup_cons, List.lookup_cons]
    rcases hk : (k == a) with _ | _ <;> simp [hk, ih]

/-! ## Helper lemmas: the inflation index loop -/

lemma ipcIndexLoop_pos : ∀ (entries acc idx : List (ℤ × ℚ)),
    ipcIndexLoop acc entries = some idx →
    (∀ p ∈ acc, 0 < p.2) → (∀ p ∈ entries, -100 < p.2) →
    ∀ p ∈ idx, 0 < p.2 := by
  intro entries
  induction entries with
  | nil =>
    intro acc idx h hacc _
    obtain rfl : acc = idx := by simpa [ipcIndexLoop] using h
    exact hacc
  | cons q rest ih =>
    intro acc idx h hacc hent
    obtain ⟨y, r⟩ := q
    rw [ipcIndexLoop] at h
    cases hl : acc.lookup (y - 1) with
    | none => rw [hl] at h; exact absurd h (by simp)
    | some prev =>
      rw [hl] at h
      refine ih _ _ h ?_ fun p hp => hent p (List.mem_cons_of_mem _ hp)
      intro p hp
      rcases List.mem_append.mp hp with h1 | h1
      · exact hacc p h1
      · obtain rfl : p = (y, prev * (1 + r / 100)) := by simpa using h1
        have hprev : 0 < prev := hacc _ (lookup_eq_some_mem hl)
        have hr : -100 < r := hent (y, r) (List.mem_cons_self _ _)
        have h100 : (0 : ℚ) < 1 + r / 100 := by linarith
        exact mul_pos hprev h100

lemma ipcIndexLoop_spec : ∀ (entries acc idx : List (ℤ × ℚ)),
    ipcIndexLoop acc entries = some idx →
    ((acc.map Prod.fst) ++ (entries.map Prod.fst)).Pairwise (· < ·) →
    acc.Sublist idx ∧ (idx.map Prod.fst).Pairwise (· < ·) ∧
      ∀ q ∈ entries, ∃ prev,
        (q.1 - 1, prev) ∈ idx ∧ (q.1, prev * (1 + q.2 / 100)) ∈ idx := by
  intro entries
  induction entries with
  | nil =>
    intro acc idx h hsort
    obtain rfl : acc = idx := by simpa [ipcIndexLoop] using h
    refine ⟨List.Sublist.refl _, by simpa using hsort, by simp⟩
  | cons q rest ih =>
    intro acc idx h hsort
    obtain ⟨y, r⟩ := q
    rw [ipcIndexLoop] at h
    cases hl : acc.lookup (y - 1) with
    | none => rw [hl] at h; exact absurd h (by simp)
    | some prev =>
      rw [hl] at h
      have hsort2 :
          (((acc ++ [(y, prev * (1 + r / 100))]).map Prod.fst) ++
            (rest.map Prod.fst)).Pairwise (· < ·) := by
        rw [List.map_append, List.append_assoc]
        simp only [List.map_cons, List.map_nil, List.singleton_append]
        simpa using hsort
      obtain ⟨hsub, hpair, hrec⟩ := ih _ _ h hsort2
      have haccsub : acc.Sublist idx :=
        (List.sublist_append_left acc [(y, prev * (1 + r / 100))]).trans hsub
      refine ⟨haccsub, hpair, ?_⟩
      intro p hp
      rcases List.mem_cons.mp hp with h1 | h1
      · subst h1
        refine ⟨prev, ?_, ?_⟩
        · exact haccsub.subset (lookup_eq_some_mem hl)
        · exact hsub.subset (List.mem_append_right _ (List.mem_cons_self _ _))
      · exact hrec p h1

/-! ## Helper lemmas: the filter cascade -/

lemma isinFilter_eq (sel : List String) (proj : Row → String) (df : List Row) :
    isinFilter sel proj df =
      df.filter fun r => sel.isEmpty || decide (proj r ∈ sel) := by
  unfold isinFilter
  rcases h : sel.isEmpty <;> simp [h]

lemma dffFiltered_eq_filter (df : List Row) (fs : FilterState) :
    dffFiltered df fs = df.filter (rowPass fs) := by
  unfold dffFiltered
  rw [isinFilter_eq, isinFilter_eq, isinFilter_eq]
  unfold filterByYear
  simp only [List.filter_filter]
  refine List.filter_congr fun r _ => ?_
  simp [rowPass, Bool.and_comm, Bool.and_assoc, Bool.and_left_comm]

lemma mem_dffFiltered {df : List Row} {fs : FilterState} {r : Row} :
    r ∈ dffFiltered df fs ↔
      r ∈ df ∧ (fs.yearLo ≤ r.vigencia ∧ r.vigencia ≤ fs.yearHi) ∧
        (fs.departamentos = [] ∨ r.departamento ∈ fs.departamentos) ∧
        (fs.municipios = [] ∨ r.municipio ∈ fs.municipios) ∧
        (fs.fuentes = [] ∨ r.fuentefinanciacion ∈ fs.fuentes) := by
  rw [dffFiltered_eq_filter, List.mem_filter, rowPass]
  simp [List.isEmpty_iff, and_assoc]

lemma filter_map_sum_le {df : List Row} {p q : Row → Bool} (v : Row → ℚ)
    (hpq : ∀ r ∈ df, p r = true → q r = true) (hv : ∀ r ∈ df, 0 ≤ v r) :
    ((df.filter p).map v).sum ≤ ((df.filter q).map v).sum := by
  induction df with
  | nil => simp
  | cons a l ih =>
    have ihl := ih (fun r hr => hpq r (List.mem_cons_of_mem _ hr))
      (fun r hr => hv r (List.mem_cons_of_mem _ hr))
    by_cases hp : p a = true
    · rw [List.filter_cons_of_pos hp,
        List.filter_cons_of_pos (hpq a (List.mem_cons_self _ _) hp)]
      simpa using ihl
    · rw [List.filter_cons_of_neg hp]
      by_cases hq : q a = true
      · rw [List.filter_cons_of_pos hq]
        have hva : 0 ≤ v a := hv a (List.mem_cons_self _ _)
        simp only [List.map_cons, List.sum_cons]
        linarith
      · rw [List.filter_cons_of_neg hq]
        exact ihl

lemma filter_length_le {df : List Row} {p q : Row → Bool}
    (hpq : ∀ r ∈ df, p r = true → q r = true) :
    (df.filter p).length ≤ (df.filter q).length := by
  induction df with
  | nil => simp
  | cons a l ih =>
    have ihl := ih fun r hr => hpq r (List.mem_cons_of_mem _ hr)
    by_cases hp : p a = true
    · rw [List.filter_cons_of_pos hp,
        List.filter_cons_of_pos (hpq a (List.mem_cons_self _ _) hp)]
      simpa using ihl
    · rw [List.filter_cons_of_neg hp]
      by_cases hq : q a = true
      · rw [List.filter_cons_of_pos hq]
        exact ihl.trans (Nat.le_succ _)
      · rw [List.filter_cons_of_neg hq]
        exact ihl

lemma rowPass_mono {A B : FilterState} (hlo : A.yearLo = B.yearLo)
    (hhi : A.yearHi = B.yearHi)
    (hd : selectionWider A.departamentos B.departamentos)
    (hm : selectionWider A.municipios B.municipios)
    (hf : selectionWider A.fuentes B.fuentes) :
    ∀ r, rowPass A r = true → rowPass B r = true := by
  intro r hr
  simp only [rowPass, Bool.and_eq_true, Bool.or_eq_true, List.isEmpty_iff,
    decide_eq_true_iff] at hr ⊢
  obtain ⟨⟨⟨hyear, hdep⟩, hmun⟩, hfue⟩ := hr
  rw [hlo, hhi] at hyear
  refine ⟨⟨⟨hyear, ?_⟩, ?_⟩, ?_⟩
  · rcases hd with h | ⟨hne, hsub⟩
    · exact Or.inl h
    · rcases hdep with h0 | h0
      · exact absurd h0 hne
      · exact Or.inr (hsub _ h0)
  · rcases hm with h | ⟨hne, hsub⟩
    · exact Or.inl h
    · rcases hmun with h0 | h0
      · exact absurd h0 hne
      · exact Or.inr (hsub _ h0)
  · rcases hf with h | ⟨hne, hsub⟩
    · exact Or.inl h
    · rcases hfue with h0 | h0
      · exact absurd h0 hne
      · exact Or.inr (hsub _ h0)

/-! ## Helper lemmas: the text normalizer -/

lemma nfd_of_stable {c : UChar} (h : stableChar c = true) : nfd c = [c] := by
  cases c <;> simp_all [stableChar, nfd]

lemma not_isMn_of_stable {c : UChar} (h : stableChar c = true) :
    isMn c = false := by
  cases c <;> simp_all [stableChar, isMn]

lemma uLower_of_stable {c : UChar} (h : stableChar c = true) :
    uLower c = c := by
  cases c <;> simp_all [stableChar, uLower]

/-- Any non-mark character produced by NFD decomposition becomes stable
after lowercasing. -/
lemma stable_uLower_nfd {c d : UChar} (hd : d ∈ nfd c)
    (hm : isMn d = false) : stableChar (uLower d) = true := by
  cases c <;> simp [nfd] at hd <;>
    (try subst hd) <;>
    (try rcases hd with rfl | rfl) <;>
    simp_all [isMn, uLower, stableChar]

lemma stripList_sublist (s : List UChar) : (stripList s).Sublist s := by
  unfold stripList
  have h2 :=
    (List.dropWhile_sublist (l := (s.dropWhile uIsWs).reverse) uIsWs).reverse
  rw [List.reverse_reverse] at h2
  exact h2.trans (List.dropWhile_sublist uIsWs)

lemma head_dropWhile_not {α : Type} (p : α → Bool) (l : List α) :
    ∀ a, (l.dropWhile p).head? = some a → p a = false := by
  induction l with
  | nil => intro a ha; simp [List.dropWhile] at ha
  | cons x xs ih =>
    intro a ha
    rw [List.dropWhile_cons] at ha
    split at ha
    · exact ih a ha
    · obtain rfl : x = a := by simpa using ha
      simp_all

lemma dropWhile_eq_self_of_head {α : Type} (p : α → Bool) (l : List α)
    (h : ∀ a, l.head? = some a → p a = false) : l.dropWhile p = l := by
  cases l with
  | nil => rfl
  | cons x xs => rw [List.dropWhile_cons, h x rfl]; simp

lemma getLast?_dropWhile {α : Type} (p : α → Bool) (l : List α)
    (h : l.dropWhile p ≠ []) : (l.dropWhile p).getLast? = l.getLast? := by
  obtain ⟨t, ht⟩ : ∃ t, t ++ l.dropWhile p = l :=
    ⟨l.takeWhile p, List.takeWhile_append_dropWhile p l⟩
  conv_rhs => rw [← ht]
  rw [List.getLast?_append]
  cases hd : (l.dropWhile p).getLast? with
  | none => exact absurd (List.getLast?_eq_none_iff.mp hd) h
  | some a => simp [Option.or]

/-- The head of a stripped string is not whitespace. -/
lemma stripList_head_not_ws (s : List UChar) :
    ∀ a, (stripList s).head? = some a → uIsWs a = false := by
  intro a ha
  unfold stripList at ha
  rw [List.head?_reverse] at ha
  rcases hne : (s.dropWhile uIsWs).reverse.dropWhile uIsWs with _ | _
  · rw [hne] at ha; simp at ha
  · rw [getLast?_dropWhile uIsWs _ (by rw [hne]; simp),
      List.getLast?_reverse] at ha
    exact head_dropWhile_not uIsWs _ a ha

/-- The last character of a stripped string is not whitespace. -/
lemma stripList_getLast_not_ws (s : List UChar) :
    ∀ a, (stripList s).getLast? = some a → uIsWs a = false := by
  intro a ha
  unfold stripList at ha
  rw [List.getLast?_reverse] at ha
  exact head_dropWhile_not uIsWs _ a ha

/-- A string with no whitespace at either end is fixed by stripping. -/
lemma stripList_eq_self {t : List UChar}
    (h1 : ∀ a, t.head? = some a → uIsWs a = false)
    (h2 : ∀ a, t.getLast? = some a → uIsWs a = false) :
    stripList t = t := by
  unfold stripList
  rw [dropWhile_eq_self_of_head uIsWs t h1,
    dropWhile_eq_self_of_head uIsWs t.reverse
      (fun a ha => h2 a (by rwa [List.head?_reverse] at ha)),
    List.reverse_reverse]

lemma stripList_idem (s : List UChar) :
    stripList (stripList s) = stripList s :=
  stripList_eq_self (stripList_head_not_ws s) (stripList_getLast_not_ws s)

/-- Stripping only removes whitespace from the two ends: the input splits
as whitespace, the stripped core, whitespace. -/
lemma stripList_infix (s : List UChar) :
    ∃ pre post, (∀ c ∈ pre, uIsWs c = true) ∧ (∀ c ∈ post, uIsWs c = true) ∧
      s = pre ++ stripList s ++ post := by
  refine ⟨s.takeWhile uIsWs,
    ((s.dropWhile uIsWs).reverse.takeWhile uIsWs).reverse,
    fun c hc => List.mem_takeWhile_imp hc,
    fun c hc => List.mem_takeWhile_imp (List.mem_reverse.mp hc), ?_⟩
  unfold stripList
  conv_lhs => rw [← List.takeWhile_append_dropWhile uIsWs s]
  rw [List.append_assoc]
  congr 1
  conv_lhs =>
    rw [← List.reverse_reverse (s.dropWhile uIsWs),
      ← List.takeWhile_append_dropWhile uIsWs (s.dropWhile uIsWs).reverse]
  rw [List.reverse_append]

/-- Every character of a normalized string is stable. -/
lemma mem_normalize_stable {s : List UChar} {c : UChar}
    (hc : c ∈ normalize_text s) : stableChar c = true := by
  unfold normalize_text at hc
  have hc2 := (stripList_sublist _).subset hc
  obtain ⟨d, hd, rfl⟩ := List.mem_map.mp hc2
  obtain ⟨hdm, hmn⟩ := List.mem_filter.mp hd
  obtain ⟨a, _, hda⟩ := List.mem_flatMap.mp hdm
  exact stable_uLower_nfd hda (by simpa using hmn)

lemma flatMap_nfd_of_stable {l : List UChar}
    (h : ∀ c ∈ l, stableChar c = true) : l.flatMap nfd = l := by
  induction l with
  | nil => rfl
  | cons a l ih =>
    rw [List.flatMap_cons, nfd_of_stable (h a (List.mem_cons_self _ _)),
      ih fun c hc => h c (List.mem_cons_of_mem _ hc)]
    rfl

lemma normalize_of_stable {l : List UChar}
    (h : ∀ c ∈ l, stableChar c = true) :
    normalize_text l = stripList l := by
  unfold normalize_text
  rw [flatMap_nfd_of_stable h,
    List.filter_eq_self.mpr fun a ha => by simp [not_isMn_of_stable (h a ha)],
    (List.map_congr_left fun a ha => uLower_of_stable (h a ha)).trans
      l.map_id]

/-! ## Helper lemmas: evaluating `get_inflation_factors` -/

/-- Branch analysis of `get_inflation_factors`: with a built index, a base
year present with nonzero index, and no zero index value, the factor dict
is returned. -/
lemma get_inflation_factors_eq_factors {ipc : List (ℤ × ℚ)} {baseYear : ℤ}
    {idx : List (ℤ × ℚ)} {b : ℚ} (hbuild : buildIpcIndex ipc = some idx)
    (hbase : idx.lookup baseYear = some b) (hb : b ≠ 0)
    (hnz : ∀ p ∈ idx, p.2 ≠ 0) :
    get_inflation_factors ipc baseYear =
      .factors (idx.map fun p => (p.1, b / p.2)) := by
  have hany : (idx.any fun p => decide (p.2 = 0)) = false := by
    rw [List.any_eq_false]
    intro p hp
    simp [hnz p hp]
  simp [get_inflation_factors, hbuild, hbase, hany, hb]

/-- The concrete factor table of app.py evaluates to `.factors`, is
non-empty, and assigns factor `1` to the base year 2023. -/
lemma appFactors_eval :
    ∃ f, get_inflation_factors IPC_ANUAL BASE_YEAR_INFLATION = .factors f ∧
      f ≠ [] ∧ f.lookup BASE_YEAR_INFLATION = some 1 := by
  simp [get_inflation_factors, buildIpcIndex, ipcIndexLoop, List.lookup,
    IPC_ANUAL, BASE_YEAR_INFLATION]
  norm_num
  exact ⟨by simp, by simp [List.lookup]⟩

lemma appFactors_spec :
    get_inflation_factors IPC_ANUAL BASE_YEAR_INFLATION =
        .factors appFactors ∧
      appFactors ≠ [] ∧ appFactors.lookup BASE_YEAR_INFLATION = some 1 := by
  obtain ⟨f, hf, hne, hl⟩ := appFactors_eval
  have heq : appFactors = f := by unfold appFactors; rw [hf]
  exact ⟨by rw [heq, hf], by rw [heq]; exact hne, by rw [heq]; exact hl⟩

lemma periodTotal_nonneg {dff : List (Row × ℚ)} (h : ∀ p ∈ dff, 0 ≤ p.2)
    (lo hi : ℤ) : 0 ≤ periodTotal dff lo hi :=
  List.sum_nonneg fun x hx => by
    obtain ⟨p, hp, rfl⟩ := List.mem_map.mp hx
    exact h p (List.mem_filter.mp hp).1

/-! ## Helper lemmas: the acquirer cleaning cascade -/

lemma appBaseTable_cons (a : RawRow) (l : List RawRow) :
    appBaseTable (a :: l) =
      match keptRow a with
      | some r => r :: appBaseTable l
      | none => appBaseTable l := by
  cases hv : toNumeric a.vigencia <;> cases hp : toNumeric a.valorpagado <;>
    simp [appBaseTable, coerceColumns, dropnaVigenciaValorpagado, keptRow,
      toRow, hv, hp]

lemma appBaseTable_eq_filterMap (rows : List RawRow) :
    appBaseTable rows = rows.filterMap keptRow := by
  induction rows with
  | nil => rfl
  | cons a l ih =>
    rw [appBaseTable_cons, List.filterMap_cons]
    cases keptRow a <;> simp [ih]

/-! ## Claim theorems -/

/-- C1 counterexample: the claim is false for inversiones.py's
`get_base_data` (cited as a source of the claim): a fetched row whose
fiscal year fails numeric coercion is not discarded — it enters the
returned table with the year as a missing value, because that variant has
no `dropna`. -/
theorem C1_counterexample :
    get_base_data_inv (.success [rawBad]) =
      some ([⟨none, "antioquia", "medellin", "sgp", some 5, "salud", "p1"⟩],
        false) := rfl

/-- C1 (amended): in app.py's `get_base_data`, fiscal year and amount paid
of every returned row are present and numeric, and exactly the fetched rows
where both numeric coercions succeed enter the returned table (so any row
where either coercion fails is discarded at acquisition time); the
inversiones.py variant instead retains such rows with missing values. -/
theorem C1_app_acquirer_drops_failed_coercions :
    ∀ rows : List RawRow,
      appBaseTable rows = rows.filterMap keptRow ∧
        (rows ≠ [] →
          get_base_data_app (.success rows) =
            some (rows.filterMap keptRow, false)) := by
  intro rows
  refine ⟨appBaseTable_eq_filterMap rows, fun hne => ?_⟩
  cases rows with
  | nil => exact absurd rfl hne
  | cons a l =>
    show some (appBaseTable (a :: l), false) = _
    rw [appBaseTable_eq_filterMap]

/-- C1 witness: the amended statement evaluated on a two-row fetch where
one row fails coercion. -/
theorem C1_witness :
    appBaseTable [rawBad, rawGood] = [rawBad, rawGood].filterMap keptRow ∧
      get_base_data_app (.success [rawBad, rawGood]) =
        some ([rawBad, rawGood].filterMap keptRow, false) := by
  have h := C1_app_acquirer_drops_failed_coercions [rawBad, rawGood]
  exact ⟨h.1, h.2 (by simp)⟩

/-- C2: on any transport or parse failure of the remote fetch, both
acquirers return an empty table and report the failure; neither lets such
an exception escape its boundary (`HTTPError`, `ConnectionError`, `Timeout`
and `JSONDecodeError` are all `RequestException`s, so inversiones.py's
narrower handlers also catch them; app.py catches every exception). -/
theorem C2_acquirer_contains_fetch_failures :
    ∀ e : PyExc, isTransportOrParse e = true →
      get_base_data_app (.failure e) = some ([], true) ∧
        get_base_data_inv (.failure e) = some ([], true) := by
  intro e he
  cases e <;>
    simp_all [get_base_data_app, get_base_data_inv, isRequestException,
      isTransportOrParse]

/-- C2 witness: the JSON-parse failure case. -/
theorem C2_witness :
    isTransportOrParse .jsonDecodeError = true ∧
      get_base_data_app (.failure .jsonDecodeError) = some ([], true) ∧
      get_base_data_inv (.failure .jsonDecodeError) = some ([], true) :=
  ⟨rfl, C2_acquirer_contains_fetch_failures .jsonDecodeError rfl⟩

/-- C3 counterexample: for the rate table `{2020: -100}` and base year
2019, the base year is present in the computed index (with value 100), yet
`get_inflation_factors` does not return the factor table: the index value
of 2020 is `100 × (1 + (-100)/100) = 0` and the unguarded division
`base_ipc / index_val` raises `ZeroDivisionError`. -/
theorem C3_counterexample :
    buildIpcIndex [((2020 : ℤ), (-100 : ℚ))] =
        some [(2019, 100), (2020, 0)] ∧
      (List.lookup (2019 : ℤ)
        [((2019 : ℤ), (100 : ℚ)), (2020, 0)]).isSome = true ∧
      get_inflation_factors [((2020 : ℤ), (-100 : ℚ))] 2019 = .pyError := by
  refine ⟨?_, ?_, ?_⟩ <;>
    simp [buildIpcIndex, ipcIndexLoop, get_inflation_factors, List.lookup]

/-- C3 (amended): for every rate table (a dict, embedded as an assoc list
with strictly ascending keys) whose cumulative index builds successfully
and contains no zero value, and every base year present in that index,
`get_inflation_factors` builds the index with `index[min(years)-1] = 100`
and `index[year] = index[year-1] * (1 + rate[year]/100)` for each year in
ascending order, and returns for every indexed year `Y` the factor
`index[base_year] / index[Y]`; the returned factor at the base year is
exactly 1.  (The zero-free condition is forced by the counterexample: a
rate of -100 makes an index value zero and the division raise.) -/
theorem C3_factor_table_formula (ipc : List (ℤ × ℚ)) (baseYear : ℤ)
    (idx : List (ℤ × ℚ)) (b : ℚ)
    (hsort : (ipc.map Prod.fst).Pairwise (· < ·))
    (hbuild : buildIpcIndex ipc = some idx)
    (hnz : ∀ p ∈ idx, p.2 ≠ 0)
    (hbase : idx.lookup baseYear = some b) :
    get_inflation_factors ipc baseYear =
        .factors (idx.map fun p => (p.1, b / p.2)) ∧
      (idx.map fun p => (p.1, b / p.2)).lookup baseYear = some 1 ∧
      (∀ y0 r0 rest, ipc = (y0, r0) :: rest →
        idx.lookup (y0 - 1) = some 100) ∧
      ∀ q ∈ ipc, ∃ prev, idx.lookup (q.1 - 1) = some prev ∧
        idx.lookup q.1 = some (prev * (1 + q.2 / 100)) := by
  have hb : b ≠ 0 := hnz _ (lookup_eq_some_mem hbase)
  obtain ⟨y0, r0, rest, rfl⟩ : ∃ y0 r0 rest, ipc = (y0, r0) :: rest := by
    cases ipc with
    | nil => simp [buildIpcIndex] at hbuild
    | cons q rest => exact ⟨q.1, q.2, rest, by simp⟩
  have hloop : ipcIndexLoop [(y0 - 1, 100)] ((y0, r0) :: rest) = some idx :=
    hbuild
  have hsort2 : (([(y0 - 1, (100 : ℚ))].map Prod.fst) ++
      (((y0, r0) :: rest).map Prod.fst)).Pairwise (· < ·) := by
    simp only [List.map_cons, List.map_nil, List.singleton_append]
    refine List.Pairwise.cons ?_ hsort
    intro y hy
    rcases List.mem_cons.mp hy with rfl | hy2
    · omega
    · have := (List.pairwise_cons.mp hsort).1 y hy2
      omega
  obtain ⟨hsub, hpair, hrec⟩ := ipcIndexLoop_spec _ _ _ hloop hsort2
  have hnd : (idx.map Prod.fst).Nodup := hpair.imp fun h => ne_of_lt h
  refine ⟨get_inflation_factors_eq_factors hbuild hbase hb hnz, ?_, ?_, ?_⟩
  · rw [lookup_map_value, hbase]
    simp [div_self hb]
  · intro y0x r0x restx heq
    obtain ⟨rfl, rfl, rfl⟩ : y0x = y0 ∧ r0x = r0 ∧ restx = rest := by
      injection heq with h1 h2
      injection h1 with h3 h4
      exact ⟨h3.symm, h4.symm, h2.symm⟩
    exact lookup_eq_of_nodup_mem hnd
      (hsub.subset (List.mem_singleton.mpr rfl))
  · intro q hq
    obtain ⟨prev, hm1, hm2⟩ := hrec q hq
    exact ⟨prev, lookup_eq_of_nodup_mem hnd hm1,
      lookup_eq_of_nodup_mem hnd hm2⟩

/-- C3 witness: the amended statement evaluated on the one-year rate table
`{2010: 3.17}` with base year 2009. -/
theorem C3_witness :
    get_inflation_factors [((2010 : ℤ), (317 / 100 : ℚ))] 2009 =
        .factors ([((2009 : ℤ), (100 : ℚ)), (2010, 10317 / 100)].map
          fun p => (p.1, (100 : ℚ) / p.2)) ∧
      ([((2009 : ℤ), (100 : ℚ)), (2010, 10317 / 100)].map
          fun p => (p.1, (100 : ℚ) / p.2)).lookup 2009 = some 1 := by
  have h := C3_factor_table_formula [((2010 : ℤ), (317 / 100 : ℚ))] 2009
    [((2009 : ℤ), (100 : ℚ)), (2010, 10317 / 100)] 100
    (by simp)
    (by simp [buildIpcIndex, ipcIndexLoop, List.lookup]; norm_num)
    (by intro p hp; simp at hp; rcases hp with rfl | rfl <;> norm_num)
    (by simp [List.lookup])
  exact ⟨h.1, h.2.1⟩

/-- C4: whenever the base year is absent from the computed cumulative
index, `get_inflation_factors` returns `None` after the `st.warning` (the
`noAdjust` outcome — not a crash), and the caller's
`if inflation_factors:` guard then leaves `valor_columna` at the nominal
column, so the pipeline aggregates exactly the nominal amounts. -/
theorem C4_missing_base_year_falls_back_to_nominal (ipc : List (ℤ × ℚ))
    (baseYear : ℤ) (idx : List (ℤ × ℚ))
    (hbuild : buildIpcIndex ipc = some idx)
    (hbase : idx.lookup baseYear = none) :
    get_inflation_factors ipc baseYear = .noAdjust ∧
      ∀ (df : List Row) (fs : FilterState),
        pipelineRunWith ipc baseYear df fs true =
          pipelineRunWith ipc baseYear df fs false := by
  have h1 : get_inflation_factors ipc baseYear = .noAdjust := by
    simp [get_inflation_factors, hbuild, hbase]
  exact ⟨h1, fun df fs => by simp [pipelineRunWith, h1]⟩

/-- C4 witness: rate table `{2010: 5}` with base year 2050 (absent from
the index), evaluated through the pipeline on a concrete table. -/
theorem C4_witness :
    get_inflation_factors [((2010 : ℤ), (5 : ℚ))] 2050 = .noAdjust ∧
      pipelineRunWith [((2010 : ℤ), (5 : ℚ))] 2050 [rowMedellin] stateA
          true =
        pipelineRunWith [((2010 : ℤ), (5 : ℚ))] 2050 [rowMedellin] stateA
          false := by
  have h := C4_missing_base_year_falls_back_to_nominal
    [((2010 : ℤ), (5 : ℚ))] 2050 [((2009 : ℤ), (100 : ℚ)), (2010, 105)]
    (by simp [buildIpcIndex, ipcIndexLoop, List.lookup]; norm_num)
    (by simp [List.lookup])
  exact ⟨h.1, h.2 [rowMedellin] stateA⟩

/-- C5: the pipeline keeps exactly the rows whose fiscal year lies in the
selected inclusive range, restricts by each of the three multiselects
exactly when that selection is non-empty (passing all rows when empty),
and — with app.py's rate table constants, whose factors do compute — the
inflation toggle replaces each remaining row's amount by amount times the
deflation factor of the row's year (multiplier 1 for a year missing from
the factor table), while the nominal amounts are used when it is off. -/
theorem C5_filter_and_adjust_pipeline (df : List Row) (fs : FilterState) :
    (∀ r : Row, r ∈ dffFiltered df fs ↔
        r ∈ df ∧ (fs.yearLo ≤ r.vigencia ∧ r.vigencia ≤ fs.yearHi) ∧
          (fs.departamentos = [] ∨ r.departamento ∈ fs.departamentos) ∧
          (fs.municipios = [] ∨ r.municipio ∈ fs.municipios) ∧
          (fs.fuentes = [] ∨ r.fuentefinanciacion ∈ fs.fuentes)) ∧
      get_inflation_factors IPC_ANUAL BASE_YEAR_INFLATION =
        .factors appFactors ∧
      pipelineRun df fs true =
        some ((dffFiltered df fs).map fun r =>
          (r, r.valorpagado * lookupFactor appFactors r.vigencia)) ∧
      pipelineRun df fs false =
        some ((dffFiltered df fs).map fun r => (r, r.valorpagado)) := by
  obtain ⟨hfac, hne, _⟩ := appFactors_spec
  have hempty : appFactors.isEmpty = false := List.isEmpty_eq_false.mpr hne
  refine ⟨fun r => mem_dffFiltered, hfac, ?_, rfl⟩
  simp [pipelineRun, pipelineRunWith, hfac, hempty]

/-- C5 witness: the pipeline conclusions instantiated on a concrete table
and filter state. -/
theorem C5_witness :
    pipelineRun [rowMedellin] stateA true =
        some ((dffFiltered [rowMedellin] stateA).map fun r =>
          (r, r.valorpagado * lookupFactor appFactors r.vigencia)) ∧
      pipelineRun [rowMedellin] stateA false =
        some ((dffFiltered [rowMedellin] stateA).map fun r =>
          (r, r.valorpagado)) :=
  ⟨(C5_filter_and_adjust_pipeline [rowMedellin] stateA).2.2.1,
   (C5_filter_and_adjust_pipeline [rowMedellin] stateA).2.2.2⟩

/-- C6: over any filtered table whose value column is non-negative (the
data model's amounts are non-negative), the comparison section shows a
percentage delta exactly when period 1's total is nonzero, that delta is
`(period2 - period1) / period1 * 100`, and a zero period-1 total yields
the `N/A` metric or the no-data notice — never a division. -/
theorem C6_comparison_delta_guarded (dff : List (Row × ℚ))
    (lo1 hi1 lo2 hi2 : ℤ) (hnn : ∀ p ∈ dff, 0 ≤ p.2) :
    ((∃ q, comparisonDelta (periodTotal dff lo1 hi1)
        (periodTotal dff lo2 hi2) = .percentDelta q) ↔
      periodTotal dff lo1 hi1 ≠ 0) ∧
    (periodTotal dff lo1 hi1 ≠ 0 →
      comparisonDelta (periodTotal dff lo1 hi1) (periodTotal dff lo2 hi2) =
        .percentDelta ((periodTotal dff lo2 hi2 - periodTotal dff lo1 hi1) /
          periodTotal dff lo1 hi1 * 100)) ∧
    (periodTotal dff lo1 hi1 = 0 →
      comparisonDelta (periodTotal dff lo1 hi1) (periodTotal dff lo2 hi2) =
          .notAvailable ∨
        comparisonDelta (periodTotal dff lo1 hi1)
          (periodTotal dff lo2 hi2) = .noData) := by
  have h1 : 0 ≤ periodTotal dff lo1 hi1 := periodTotal_nonneg hnn lo1 hi1
  by_cases hz : periodTotal dff lo1 hi1 = 0
  · refine ⟨⟨fun ⟨q, hq⟩ => ?_, fun h => absurd hz h⟩,
      fun h => absurd hz h, fun _ => ?_⟩
    · rw [comparisonDelta, hz] at hq
      by_cases h2 : (0 : ℚ) < periodTotal dff lo2 hi2 <;>
        simp [h2] at hq
    · rw [comparisonDelta, hz]
      by_cases h2 : (0 : ℚ) < periodTotal dff lo2 hi2 <;> simp [h2]
  · have hpos : 0 < periodTotal dff lo1 hi1 := lt_of_le_of_ne h1 (Ne.symm hz)
    have heq : comparisonDelta (periodTotal dff lo1 hi1)
        (periodTotal dff lo2 hi2) =
          .percentDelta ((periodTotal dff lo2 hi2 - periodTotal dff lo1 hi1) /
            periodTotal dff lo1 hi1 * 100) := by
      rw [comparisonDelta, if_pos (Or.inl hpos), if_pos hpos]
    exact ⟨⟨fun _ => hz, fun _ => ⟨_, heq⟩⟩, fun _ => heq,
      fun h => absurd h hz⟩

/-- C6 witness: period totals 100 and 150 give a 50.00 percent delta. -/
theorem C6_witness :
    (∀ p ∈ demoPeriods, 0 ≤ p.2) ∧
      periodTotal demoPeriods 2010 2011 = 100 ∧
      periodTotal demoPeriods 2012 2013 = 150 ∧
      comparisonDelta (periodTotal demoPeriods 2010 2011)
          (periodTotal demoPeriods 2012 2013) =
        .percentDelta ((periodTotal demoPeriods 2012 2013 -
            periodTotal demoPeriods 2010 2011) /
          periodTotal demoPeriods 2010 2011 * 100) ∧
      (periodTotal demoPeriods 2012 2013 - periodTotal demoPeriods 2010 2011) /
          periodTotal demoPeriods 2010 2011 * 100 = 50 := by
  have he1 : periodTotal demoPeriods 2010 2011 = 100 := by
    simp [periodTotal, demoPeriods]
  have he2 : periodTotal demoPeriods 2012 2013 = 150 := by
    simp [periodTotal, demoPeriods]
  have hnn : ∀ p ∈ demoPeriods, 0 ≤ p.2 := by
    intro p hp
    simp [demoPeriods] at hp
    rcases hp with rfl | rfl <;> norm_num
  refine ⟨hnn, he1, he2,
    (C6_comparison_delta_guarded demoPeriods 2010 2011 2012 2013 hnn).2.1
      (by rw [he1]; norm_num), ?_⟩
  rw [he1, he2]
  norm_num

/-- C7: the text normalizer is idempotent — normalizing an
already-normalized string returns it unchanged. -/
theorem C7_normalize_idempotent (s : List UChar) :
    normalize_text (normalize_text s) = normalize_text s := by
  rw [normalize_of_stable fun c hc => mem_normalize_stable hc]
  unfold normalize_text
  exact stripList_idem _

/-- C8: the normalizer lowercases, trims edge whitespace, and removes
exactly the combining marks (category Mn) of the decomposed form while
preserving every other character — concretely `Bogotá D.C.` becomes
`bogota d.c.` and `  Nariño ` becomes `narino` — its output carries no
mark, is lowercase-stable and has no edge whitespace, the lower-cased
mark-filtered decomposition equals the output up to trimmed whitespace,
and a non-string input is returned unchanged. -/
theorem C8_normalizer_contract :
    normalize_text bogotaRaw = bogotaNorm ∧
      normalize_text narinoRaw = narinoNorm ∧
      (∀ t : ℕ, normalize_text_py (.nonStr t) = .nonStr t) ∧
      ∀ s : List UChar,
        (∀ c ∈ normalize_text s, isMn c = false ∧ uLower c = c) ∧
        (∀ a, (normalize_text s).head? = some a → uIsWs a = false) ∧
        (∀ a, (normalize_text s).getLast? = some a → uIsWs a = false) ∧
        ∃ pre post,
          (∀ c ∈ pre, uIsWs c = true) ∧ (∀ c ∈ post, uIsWs c = true) ∧
          ((s.flatMap nfd).filter fun c => !isMn c).map uLower =
            pre ++ normalize_text s ++ post := by
  refine ⟨by decide, by decide, fun t => rfl, fun s => ?_⟩
  refine ⟨fun c hc => ⟨not_isMn_of_stable (mem_normalize_stable hc),
    uLower_of_stable (mem_normalize_stable hc)⟩, ?_, ?_, ?_⟩
  · exact fun a ha => stripList_head_not_ws _ a ha
  · exact fun a ha => stripList_getLast_not_ws _ a ha
  · exact stripList_infix _

/-- C9 counterexample: the claim fails because an empty selection means
"pass everything through", not "select nothing": with equal year ranges,
state B's department selection `["otra"]` is a superset of state A's empty
selection, yet B filters out the only row, so both the aggregate total and
the row count are strictly smaller under B than under A. -/
theorem C9_counterexample :
    (∀ x ∈ stateA.departamentos, x ∈ stateB.departamentos) ∧
      (∀ x ∈ stateA.municipios, x ∈ stateB.municipios) ∧
      (∀ x ∈ stateA.fuentes, x ∈ stateB.fuentes) ∧
      stateA.yearLo = stateB.yearLo ∧ stateA.yearHi = stateB.yearHi ∧
      aggregateTotal [rowMedellin] stateB <
        aggregateTotal [rowMedellin] stateA ∧
      filteredCount [rowMedellin] stateB <
        filteredCount [rowMedellin] stateA := by
  refine ⟨by simp [stateA], by simp [stateA], by simp [stateA], rfl, rfl,
    ?_, ?_⟩
  · simp [aggregateTotal, dffFiltered, isinFilter, filterByYear, stateA,
      stateB, rowMedellin]
  · simp [filteredCount, dffFiltered, isinFilter, filterByYear, stateA,
      stateB, rowMedellin]

/-- C9 (amended): with equal year ranges, non-negative amounts (the data
model's invariant), and each of B's three selections either empty
(passing everything) or a superset of A's non-empty selection, the
aggregate total and the filtered row count under A are at most those
under B.  (The counterexample forces the reformulation of "superset" for
empty selections, whose meaning is "no restriction".) -/
theorem C9_filter_monotonicity (df : List Row) (A B : FilterState)
    (hlo : A.yearLo = B.yearLo) (hhi : A.yearHi = B.yearHi)
    (hval : ∀ r ∈ df, 0 ≤ r.valorpagado)
    (hd : selectionWider A.departamentos B.departamentos)
    (hm : selectionWider A.municipios B.municipios)
    (hf : selectionWider A.fuentes B.fuentes) :
    aggregateTotal df A ≤ aggregateTotal df B ∧
      filteredCount df A ≤ filteredCount df B := by
  have hmono := rowPass_mono hlo hhi hd hm hf
  constructor
  · unfold aggregateTotal
    rw [dffFiltered_eq_filter, dffFiltered_eq_filter]
    exact filter_map_sum_le Row.valorpagado (fun r _ => hmono r) hval
  · unfold filteredCount
    rw [dffFiltered_eq_filter, dffFiltered_eq_filter]
    exact filter_length_le fun r _ => hmono r

/-- C9 witness: widening the department selection from `["antioquia"]` to
`["antioquia", "otra"]` keeps the total and count monotone. -/
theorem C9_witness :
    aggregateTotal [rowMedellin] stateA2 ≤
        aggregateTotal [rowMedellin] stateB2 ∧
      filteredCount [rowMedellin] stateA2 ≤
        filteredCount [rowMedellin] stateB2 :=
  C9_filter_monotonicity [rowMedellin] stateA2 stateB2 rfl rfl
    (by
      intro r hr
      obtain rfl : r = rowMedellin := by simpa using hr
      norm_num [rowMedellin])
    (Or.inr ⟨by simp [stateA2], fun x hx => by
      simp [stateA2] at hx
      simp [stateB2, hx]⟩)
    (Or.inl rfl) (Or.inl rfl)

/-- C10: the divisions `base_ipc / index_val` carry no zero guard, but
when every annual rate exceeds -100 every cumulative index value is
strictly positive (the anchor is 100 and each step multiplies by a
positive `1 + rate/100`), so for any base year present in the index no
`ZeroDivisionError` can occur and the truthiness test `if not base_ipc`
cannot spuriously report the base year as missing: the factor table is
returned. -/
theorem C10_positive_index_no_zero_division (ipc : List (ℤ × ℚ))
    (baseYear : ℤ) (idx : List (ℤ × ℚ)) (b : ℚ)
    (hrates : ∀ p ∈ ipc, -100 < p.2)
    (hbuild : buildIpcIndex ipc = some idx)
    (hbase : idx.lookup baseYear = some b) :
    (∀ p ∈ idx, 0 < p.2) ∧ 0 < b ∧
      get_inflation_factors ipc baseYear =
        .factors (idx.map fun p => (p.1, b / p.2)) := by
  obtain ⟨y0, r0, rest, rfl⟩ : ∃ y0 r0 rest, ipc = (y0, r0) :: rest := by
    cases ipc with
    | nil => simp [buildIpcIndex] at hbuild
    | cons q rest => exact ⟨q.1, q.2, rest, by simp⟩
  have hloop : ipcIndexLoop [(y0 - 1, 100)] ((y0, r0) :: rest) = some idx :=
    hbuild
  have hpos : ∀ p ∈ idx, 0 < p.2 := by
    refine ipcIndexLoop_pos _ _ _ hloop ?_ hrates
    intro p hp
    obtain rfl : p = (y0 - 1, (100 : ℚ)) := by simpa using hp
    norm_num
  have hb : 0 < b := hpos _ (lookup_eq_some_mem hbase)
  exact ⟨hpos, hb, get_inflation_factors_eq_factors hbuild hbase hb.ne'
    fun p hp => (hpos p hp).ne'⟩

/-- C10 witness: the rate table `{2021: 5.62}` with base year 2020. -/
theorem C10_witness :
    (∀ p ∈ [((2020 : ℤ), (100 : ℚ)), (2021, 10562 / 100)], 0 < p.2) ∧
      (0 : ℚ) < 100 ∧
      get_inflation_factors [((2021 : ℤ), (562 / 100 : ℚ))] 2020 =
        .factors ([((2020 : ℤ), (100 : ℚ)), (2021, 10562 / 100)].map
          fun p => (p.1, (100 : ℚ) / p.2)) :=
  C10_positive_index_no_zero_division [((2021 : ℤ), (562 / 100 : ℚ))] 2020
    [((2020 : ℤ), (100 : ℚ)), (2021, 10562 / 100)] 100
    (by
      intro p hp
      obtain rfl : p = ((2021 : ℤ), (562 / 100 : ℚ)) := by simpa using hp
      norm_num)
    (by simp [buildIpcIndex, ipcIndexLoop, List.lookup]; norm_num)
    (by simp [List.lookup])

end Inversab
